import Mathlib

set_option maxRecDepth 20000

namespace LLMEval

/-! # Verification of the LLMEvaluator judgment-extraction and scoring core

Shallow embedding of `src/schemas/evaluation.py`, `src/schemas/scoring_rvc.py`
and `src/utils/llm_output_parser.py`.  Python dictionaries are modelled as
insertion-ordered entry lists, Python `float` literals as the exact decimal
rationals written in the source, and an exception raised inside a function as
an `Option`/`Except` failure value of the model of that function. -/

/-- Values of the dynamic (Python) value universe manipulated by the
extraction pipeline: strings, integers, booleans, `None`, lists, and
dictionaries (as insertion-ordered key/value entry lists, as in CPython). -/
inductive PyVal where
  | str (s : String)
  | int (n : Int)
  | bool (b : Bool)
  | none
  | list (xs : List PyVal)
  | dict (entries : List (PyVal × PyVal))

/-- ASCII lower-casing of a character, as Python `str.lower()` acts on the
ASCII range (the only range exercised by this repository's data; Unicode
case-mapping beyond ASCII is outside the model). -/
def pyLowerChar (c : Char) : Char :=
  if 'A' ≤ c ∧ c ≤ 'Z' then Char.ofNat (c.toNat + 32) else c

/-- Python `str.lower()` (ASCII range). -/
def pyLower (s : String) : String :=
  ⟨s.data.map pyLowerChar⟩

/-- Python equality between the scalar values that occur as dictionary keys
here.  (Containers are unhashable in Python and cannot be dict keys; the
`1 == True` cross-type quirk is not modelled since no integer or boolean key
ever meets the string keys used by the pipeline.) -/
def keyEq : PyVal → PyVal → Bool
  | .str a, .str b => a == b
  | .int a, .int b => a == b
  | .bool a, .bool b => a == b
  | .none, .none => true
  | _, _ => false

/-- CPython dict insertion: if the key is already present its value is
replaced in place, otherwise the new entry is appended at the end. -/
def dictInsert (es : List (PyVal × PyVal)) (k v : PyVal) : List (PyVal × PyVal) :=
  match es with
  | [] => [(k, v)]
  | (k', v') :: t => if keyEq k' k then (k', v) :: t else (k', v') :: dictInsert t k v

/-- Dictionary lookup by a string key (`d[k]` / `d.get(k)` with a `str` key). -/
def dictGet (es : List (PyVal × PyVal)) (k : String) : Option PyVal :=
  (es.find? (fun e => keyEq e.1 (.str k))).map (·.2)

/-- Python `d.get(k, default)`. -/
def dictGetD (es : List (PyVal × PyVal)) (k : String) (dflt : PyVal) : PyVal :=
  (dictGet es k).getD dflt

/-- Python truthiness of a value (used by `if parsed_result ...`). -/
def pyTruthy : PyVal → Bool
  | .str s => !s.isEmpty
  | .int n => n != 0
  | .bool b => b
  | .none => false
  | .list xs => !xs.isEmpty
  | .dict es => !es.isEmpty

/-- Python `repr`, for the value shapes reachable here; used by `str()` on
non-string values (`str(normalized_dict.get(...))` in the blob strategy). -/
def pyRepr : PyVal → String
  | .str s => "'" ++ s ++ "'"
  | .int n => toString n
  | .bool b => if b then "True" else "False"
  | .none => "None"
  | .list xs => "[" ++ String.intercalate ", " (xs.attach.map (fun x => pyRepr x.1)) ++ "]"
  | .dict es =>
      "\x7b" ++
        String.intercalate ", "
          (es.attach.map (fun e => pyRepr e.1.1 ++ ": " ++ pyRepr e.1.2)) ++ "\x7d"
decreasing_by
  · have h := List.sizeOf_lt_of_mem x.2
    simp only [PyVal.list.sizeOf_spec]
    omega
  · obtain ⟨⟨a, b⟩, hm⟩ := e
    have h := List.sizeOf_lt_of_mem hm
    simp only [Prod.mk.sizeOf_spec] at h
    simp only [PyVal.dict.sizeOf_spec]
    omega
  · obtain ⟨⟨a, b⟩, hm⟩ := e
    have h := List.sizeOf_lt_of_mem hm
    simp only [Prod.mk.sizeOf_spec] at h
    simp only [PyVal.dict.sizeOf_spec]
    omega

/-- Python `str()` of a value. -/
def pyStr : PyVal → String
  | .str s => s
  | v => pyRepr v

/-! ## The scorer (`src/schemas/scoring_rvc.py`) -/

/-- Model of `ScoreSchemaRVC`: six float fields with the defaults declared in
the source (`pass_high = 1.0`, ..., `fail_low = 0.4`), floats taken as the
exact decimal rationals written there. -/
structure ScoreSchemaRVC where
  pass_high : ℚ := 1.0
  pass_medium : ℚ := 0.85
  pass_low : ℚ := 0.6
  fail_high : ℚ := 0.0
  fail_medium : ℚ := 0.15
  fail_low : ℚ := 0.4

/-- Model of `Verdict.from_string`: lower-case the input and look it up in the
enum; a `ValueError` (value outside the enum) is modelled as `none`.  A
non-string input would raise `AttributeError` on `.lower()`, which callers
model by requiring a `.str` value before calling this. -/
def verdictFromString (value : String) : Option String :=
  let l := pyLower value
  if l = "pass" ∨ l = "fail" then some l else Option.none

/-- Model of `ConfidenceLevel.from_string` (same conventions). -/
def confidenceFromString (value : String) : Option String :=
  let l := pyLower value
  if l = "high" ∨ l = "medium" ∨ l = "low" then some l else Option.none

/-- Model of `getattr(self, score_key)` for the composite key built by
`get_score`; an unknown attribute (`AttributeError`) is modelled as `none`. -/
def scoreAttr (t : ScoreSchemaRVC) (key : String) : Option ℚ :=
  if key = "pass_high" then some t.pass_high
  else if key = "pass_medium" then some t.pass_medium
  else if key = "pass_low" then some t.pass_low
  else if key = "fail_high" then some t.fail_high
  else if key = "fail_medium" then some t.fail_medium
  else if key = "fail_low" then some t.fail_low
  else Option.none

/-- Model of `ScoreSchemaRVC.get_score`: read `model_output['verdict']` and
`model_output['confidence']`, convert both through the enums, and return the
attribute named by the composite key.  Any raised exception (missing key,
non-string value, enum `ValueError`, subscript of a non-dict) is `none`. -/
def getScore (t : ScoreSchemaRVC) (modelOutput : PyVal) : Option ℚ :=
  match modelOutput with
  | .dict es =>
    match dictGet es "verdict" with
    | some (.str v) =>
      match verdictFromString v with
      | some verdict =>
        match dictGet es "confidence" with
        | some (.str c) =>
          match confidenceFromString c with
          | some confidence => scoreAttr t (verdict ++ "_" ++ confidence)
          | Option.none => Option.none
        | _ => Option.none
      | Option.none => Option.none
    | _ => Option.none
  | _ => Option.none

/-! ## A model of `json.loads` (the subset of JSON exercised here)

The parser below covers JSON objects, arrays, strings with the single-character
escapes, integers, `true`/`false`/`null`, and insignificant whitespace.
Outside the modelled subset (floating-point numbers, exponents, `\u` escapes,
`NaN`/`Infinity`) it answers `none`; no claim below depends on those inputs. -/

/-- JSON insignificant whitespace (space, tab, newline, carriage return). -/
def isJsonWs (c : Char) : Bool :=
  c = ' ' ∨ c = '\t' ∨ c = '\n' ∨ c = '\r'

/-- Drop leading JSON whitespace. -/
def skipWs : List Char → List Char
  | [] => []
  | c :: t => if isJsonWs c then skipWs t else c :: t

/-- Single-character JSON string escapes (`\uXXXX` is outside the subset). -/
def unescapeChar (c : Char) : Option Char :=
  if c = '"' then some '"'
  else if c = '\\' then some '\\'
  else if c = '/' then some '/'
  else if c = 'n' then some '\n'
  else if c = 't' then some '\t'
  else if c = 'r' then some '\r'
  else if c = 'b' then some '\x08'
  else if c = 'f' then some '\x0c'
  else Option.none

/-- Parse the body of a JSON string (the opening quote already consumed),
returning the decoded characters and the remainder after the closing quote. -/
def parseStringBody : List Char → Option (List Char × List Char)
  | [] => Option.none
  | c :: rest =>
    if c = '"' then some ([], rest)
    else if c = '\\' then
      match rest with
      | [] => Option.none
      | e :: rest2 =>
        match unescapeChar e with
        | some u =>
          match parseStringBody rest2 with
          | some (s, r) => some (u :: s, r)
          | Option.none => Option.none
        | Option.none => Option.none
    else
      match parseStringBody rest with
      | some (s, r) => some (c :: s, r)
      | Option.none => Option.none

/-- ASCII decimal digit test. -/
def isDigitChar (c : Char) : Bool := '0' ≤ c ∧ c ≤ '9'

/-- Numeric value of a digit run. -/
def digitsToNat (ds : List Char) : Nat :=
  ds.foldl (fun a c => a * 10 + (c.toNat - '0'.toNat)) 0

/-- Parse a JSON integer literal (digit run); a following `.`, `e` or `E`
would make it a float, which is outside the modelled subset. -/
def parseNatNum (cs : List Char) : Option (Nat × List Char) :=
  match List.span isDigitChar cs with
  | (ds, r) =>
    if ds.isEmpty then Option.none
    else
      match r with
      | [] => some (digitsToNat ds, [])
      | d :: _ =>
        if d = '.' ∨ d = 'e' ∨ d = 'E' then Option.none else some (digitsToNat ds, r)

mutual
/-- Fueled recursive-descent JSON value (`json.loads` grammar, subset above). -/
def parseVal : Nat → List Char → Option (PyVal × List Char)
  | 0, _ => Option.none
  | n + 1, cs =>
    match skipWs cs with
    | [] => Option.none
    | c :: rest =>
      if c = '"' then
        match parseStringBody rest with
        | some (s, r) => some (.str ⟨s⟩, r)
        | Option.none => Option.none
      else if c = '\x7b' then
        match skipWs rest with
        | '\x7d' :: r2 => some (.dict [], r2)
        | r2 => parseEntries n r2 []
      else if c = '[' then
        match skipWs rest with
        | ']' :: r2 => some (.list [], r2)
        | r2 => parseElems n r2 []
      else if ("true".data).isPrefixOf (c :: rest) then some (.bool true, rest.drop 3)
      else if ("false".data).isPrefixOf (c :: rest) then some (.bool false, rest.drop 4)
      else if ("null".data).isPrefixOf (c :: rest) then some (.none, rest.drop 3)
      else if c = '-' then
        match parseNatNum rest with
        | some (m, r) => some (.int (-(m : Int)), r)
        | Option.none => Option.none
      else
        match parseNatNum (c :: rest) with
        | some (m, r) => some (.int (m : Int), r)
        | Option.none => Option.none

/-- Object members after `{` (duplicate keys: the later value wins, as in
CPython's dict building). -/
def parseEntries : Nat → List Char → List (PyVal × PyVal) → Option (PyVal × List Char)
  | 0, _, _ => Option.none
  | n + 1, cs, acc =>
    match skipWs cs with
    | '"' :: r =>
      match parseStringBody r with
      | some (k, r2) =>
        match skipWs r2 with
        | ':' :: r3 =>
          match parseVal n r3 with
          | some (v, r4) =>
            match skipWs r4 with
            | ',' :: r5 => parseEntries n r5 (dictInsert acc (.str ⟨k⟩) v)
            | '\x7d' :: r5 => some (.dict (dictInsert acc (.str ⟨k⟩) v), r5)
            | _ => Option.none
          | Option.none => Option.none
        | _ => Option.none
      | Option.none => Option.none
    | _ => Option.none

/-- Array elements after `[`. -/
def parseElems : Nat → List Char → List PyVal → Option (PyVal × List Char)
  | 0, _, _ => Option.none
  | n + 1, cs, acc =>
    match parseVal n cs with
    | some (v, r) =>
      match skipWs r with
      | ',' :: r2 => parseElems n r2 (acc ++ [v])
      | ']' :: r2 => some (.list (acc ++ [v]), r2)
      | _ => Option.none
    | Option.none => Option.none
end

/-- Model of `json.loads`: parse one value, allow surrounding whitespace,
require the whole input consumed; a `json.JSONDecodeError` is `none`. -/
def jsonLoads (s : String) : Option PyVal :=
  match parseVal (s.data.length + 1) s.data with
  | some (v, rest) => if (skipWs rest).isEmpty then some v else Option.none
  | Option.none => Option.none

/-! ## The judgment record (`EvaluationResponse` in `src/schemas/evaluation.py`) -/

/-- Whitespace stripped by Python `str.strip()` (the ASCII whitespace set). -/
def isPySpace (c : Char) : Bool :=
  c = ' ' ∨ c = '\t' ∨ c = '\n' ∨ c = '\r' ∨ c = '\x0b' ∨ c = '\x0c'

/-- Python `str.strip()`. -/
def pyStrip (s : String) : String :=
  ⟨((s.data.dropWhile isPySpace).reverse.dropWhile isPySpace).reverse⟩

/-- The three declared fields of the pydantic model `EvaluationResponse`. -/
structure EvaluationResponse where
  reasoning : String
  verdict : String
  confidence : String

/-- The constraints pydantic enforces at construction of `EvaluationResponse`:
non-empty (post-strip) reasoning via `validate_reasoning`, and the two
`Literal` fields. -/
def EvaluationResponse.Valid (r : EvaluationResponse) : Prop :=
  pyStrip r.reasoning ≠ "" ∧ (r.verdict = "Pass" ∨ r.verdict = "Fail") ∧
    (r.confidence = "High" ∨ r.confidence = "Medium" ∨ r.confidence = "Low")

/-- Failure kinds surfaced by the data model and the extraction pipeline. -/
inductive ExtractFail where
  | extractionFailure
  | invalidReasoning
  | invalidVerdict
  | invalidConfidence
  | extraForbidden
  | missingField
  | typeError
deriving DecidableEq

/-- Model of constructing `EvaluationResponse(**d)` from a parsed dictionary:
keyword keys must be strings, each declared field must be present with a value
satisfying its type and validator (`validate_reasoning` rejects empty or
whitespace-only reasoning; the `Literal` fields require the exact canonical
tokens), and `Config.extra = 'forbid'` rejects any undeclared key.  Pydantic
collects all field errors at once; the model reports the first in field
declaration order, the only granularity the claims use. -/
def evalResponseFromDict (es : List (PyVal × PyVal)) : Except ExtractFail EvaluationResponse :=
  if es.any (fun e => match e.1 with | .str _ => false | _ => true) then
    .error .typeError
  else
    match dictGet es "reasoning" with
    | Option.none => .error .missingField
    | some (.str s) =>
      if pyStrip s = "" then .error .invalidReasoning
      else
        match dictGet es "verdict" with
        | Option.none => .error .missingField
        | some (.str v) =>
          if v = "Pass" ∨ v = "Fail" then
            match dictGet es "confidence" with
            | Option.none => .error .missingField
            | some (.str c) =>
              if c = "High" ∨ c = "Medium" ∨ c = "Low" then
                if es.any (fun e =>
                    !(keyEq e.1 (.str "reasoning") || keyEq e.1 (.str "verdict") ||
                      keyEq e.1 (.str "confidence"))) then
                  .error .extraForbidden
                else
                  .ok ⟨s, v, c⟩
              else .error .invalidConfidence
            | some _ => .error .invalidConfidence
          else .error .invalidVerdict
        | some _ => .error .invalidVerdict
    | some _ => .error .typeError

/-- JSON string escaping as `model_dump_json` emits it for the characters
reachable here: `"` and `\` are escaped, other characters pass through.  (The
serializer also escapes ASCII control characters as `\uXXXX`; since
`json.loads` decodes those back, the composed loads-after-dumps behavior
modelled by the claims is unchanged.) -/
def escapeChars : List Char → List Char
  | [] => []
  | c :: t =>
    if c = '"' then '\\' :: '"' :: escapeChars t
    else if c = '\\' then '\\' :: '\\' :: escapeChars t
    else c :: escapeChars t

/-- Character stream of `model_dump_json()`: the three declared fields in
declaration order, compact separators, written here in right-nested form. -/
def modelDumpJsonData (r : EvaluationResponse) : List Char :=
  '\x7b' :: '"' :: (escapeChars "reasoning".data ++
    ('"' :: ':' :: '"' :: (escapeChars r.reasoning.data ++
      ('"' :: ',' :: '"' :: (escapeChars "verdict".data ++
        ('"' :: ':' :: '"' :: (escapeChars r.verdict.data ++
          ('"' :: ',' :: '"' :: (escapeChars "confidence".data ++
            ('"' :: ':' :: '"' :: (escapeChars r.confidence.data ++
              ['"', '\x7d'])))))))))))

/-- Model of `self.model_dump_json()`. -/
def modelDumpJson (r : EvaluationResponse) : String :=
  ⟨modelDumpJsonData r⟩

/-- Model of `EvaluationResponse.to_json`: `json.loads(self.model_dump_json())`
with a `JSONDecodeError` mapped to the empty dictionary. -/
def to_json (r : EvaluationResponse) : PyVal :=
  match jsonLoads (modelDumpJson r) with
  | some v => v
  | Option.none => .dict []

/-! ## Substring search (Python `in`) and related string helpers -/

/-- Membership of a needle as a contiguous infix of a character list. -/
def listIsInfix (needle hay : List Char) : Bool :=
  if needle.isPrefixOf hay then true
  else
    match hay with
    | [] => false
    | _ :: t => listIsInfix needle t

/-- Python substring containment `needle in hay`. -/
def pyIn (needle hay : String) : Bool :=
  listIsInfix needle.data hay.data

/-- Index of the first occurrence of a needle in a character list. -/
def findSubIdx (needle hay : List Char) : Option Nat :=
  if needle.isPrefixOf hay then some 0
  else
    match hay with
    | [] => Option.none
    | _ :: t => (findSubIdx needle t).map (· + 1)

/-- ASCII upper-casing of a character (Python `str.upper()` on ASCII). -/
def pyUpperChar (c : Char) : Char :=
  if 'a' ≤ c ∧ c ≤ 'z' then Char.ofNat (c.toNat - 32) else c

/-- Python `str.capitalize()`: first character upper-cased, the rest
lower-cased. -/
def pyCapitalize (s : String) : String :=
  match s.data with
  | [] => ""
  | c :: t => ⟨pyUpperChar c :: t.map pyLowerChar⟩

/-! ## A model of `ast.literal_eval` (the subset exercised here)

Python literals: strings in single or double quotes with the common
single-character escapes (an unknown escape keeps the backslash, as in
Python), integers, `True`/`False`/`None`, lists, and flat dictionaries.
Floats, tuples and set literals are outside the subset and answer `none`;
at every use site a non-`None`-returning shape outside the subset leads to
the same pipeline outcome (the strategy is skipped) as in the source. -/

/-- Single-character escapes inside Python string literals. -/
def pyEscChar (c : Char) : Option Char :=
  if c = '\\' then some '\\'
  else if c = '\'' then some '\''
  else if c = '"' then some '"'
  else if c = 'n' then some '\n'
  else if c = 't' then some '\t'
  else if c = 'r' then some '\r'
  else if c = 'b' then some '\x08'
  else if c = 'f' then some '\x0c'
  else Option.none

/-- Body of a Python string literal delimited by quote character `q`. -/
def parsePyStringBody (q : Char) : List Char → Option (List Char × List Char)
  | [] => Option.none
  | c :: rest =>
    if c = q then some ([], rest)
    else if c = '\\' then
      match rest with
      | [] => Option.none
      | e :: rest2 =>
        match pyEscChar e with
        | some u =>
          match parsePyStringBody q rest2 with
          | some (s, r) => some (u :: s, r)
          | Option.none => Option.none
        | Option.none =>
          match parsePyStringBody q rest2 with
          | some (s, r) => some ('\\' :: e :: s, r)
          | Option.none => Option.none
    else
      match parsePyStringBody q rest with
      | some (s, r) => some (c :: s, r)
      | Option.none => Option.none

mutual
/-- Fueled recursive-descent parse of one Python literal. -/
def parseLit : Nat → List Char → Option (PyVal × List Char)
  | 0, _ => Option.none
  | n + 1, cs =>
    match skipWs cs with
    | [] => Option.none
    | c :: rest =>
      if c = '\'' then
        match parsePyStringBody '\'' rest with
        | some (s, r) => some (.str ⟨s⟩, r)
        | Option.none => Option.none
      else if c = '"' then
        match parsePyStringBody '"' rest with
        | some (s, r) => some (.str ⟨s⟩, r)
        | Option.none => Option.none
      else if c = '\x7b' then
        match skipWs rest with
        | '\x7d' :: r2 => some (.dict [], r2)
        | r2 => parseLitEntries n r2 []
      else if c = '[' then
        match skipWs rest with
        | ']' :: r2 => some (.list [], r2)
        | r2 => parseLitElems n r2 []
      else if ("True".data).isPrefixOf (c :: rest) then some (.bool true, rest.drop 3)
      else if ("False".data).isPrefixOf (c :: rest) then some (.bool false, rest.drop 4)
      else if ("None".data).isPrefixOf (c :: rest) then some (.none, rest.drop 3)
      else if c = '-' then
        match parseNatNum rest with
        | some (m, r) => some (.int (-(m : Int)), r)
        | Option.none => Option.none
      else
        match parseNatNum (c :: rest) with
        | some (m, r) => some (.int (m : Int), r)
        | Option.none => Option.none

/-- Dictionary members of a Python dict literal after `{` (trailing comma
allowed, duplicate keys resolved by later-wins insertion as in CPython). -/
def parseLitEntries : Nat → List Char → List (PyVal × PyVal) → Option (PyVal × List Char)
  | 0, _, _ => Option.none
  | n + 1, cs, acc =>
    match parseLit n cs with
    | some (k, r) =>
      match skipWs r with
      | ':' :: r2 =>
        match parseLit n r2 with
        | some (v, r3) =>
          match skipWs r3 with
          | ',' :: r4 =>
            match skipWs r4 with
            | '\x7d' :: r5 => some (.dict (dictInsert acc k v), r5)
            | r5 => parseLitEntries n r5 (dictInsert acc k v)
          | '\x7d' :: r4 => some (.dict (dictInsert acc k v), r4)
          | _ => Option.none
        | Option.none => Option.none
      | _ => Option.none
    | Option.none => Option.none

/-- Elements of a Python list literal after `[` (trailing comma allowed). -/
def parseLitElems : Nat → List Char → List PyVal → Option (PyVal × List Char)
  | 0, _, _ => Option.none
  | n + 1, cs, acc =>
    match parseLit n cs with
    | some (v, r) =>
      match skipWs r with
      | ',' :: r2 =>
        match skipWs r2 with
        | ']' :: r3 => some (.list (acc ++ [v]), r3)
        | r3 => parseLitElems n r3 (acc ++ [v])
      | ']' :: r2 => some (.list (acc ++ [v]), r2)
      | _ => Option.none
    | Option.none => Option.none
end

/-- Model of `ast.literal_eval` on the matched blob: whole-input parse of one
literal; a `SyntaxError`/`ValueError` is `none`. -/
def literalEval (s : String) : Option PyVal :=
  match parseLit (s.data.length + 1) s.data with
  | some (v, rest) => if (skipWs rest).isEmpty then some v else Option.none
  | Option.none => Option.none

/-! ## The embedded-object (blob) strategies -/

/-- Model of the first match of the regex pattern for a brace-delimited blob
with no nested braces: the first opening brace whose next brace character is a
closing brace, together with everything between, braces included. -/
def findBlob : List Char → Option (List Char)
  | [] => Option.none
  | c :: t =>
    if c = '\x7b' then
      match List.span (fun d => d ≠ '\x7b' ∧ d ≠ '\x7d') t with
      | (body, rest) =>
        match rest with
        | '\x7d' :: _ => some ('\x7b' :: body ++ ['\x7d'])
        | _ => findBlob t
    else findBlob t

/-- Key normalization `{key.lower(): value for key, value in d.items()}`;
a non-string key raises `AttributeError`, modelled as `none`. -/
def normalizeKeysAux (acc : List (PyVal × PyVal)) :
    List (PyVal × PyVal) → Option (List (PyVal × PyVal))
  | [] => some acc
  | (k, v) :: t =>
    match k with
    | .str ks => normalizeKeysAux (dictInsert acc (.str (pyLower ks)) v) t
    | _ => Option.none

/-- First token of `toks` whose lower-cased form occurs as a substring of
`hay`, returned verbatim (the loop over the canonical token lists in the blob
strategies). -/
def searchTokenList (toks : List String) (hay : String) : Option String :=
  match toks with
  | [] => Option.none
  | tok :: rest => if pyIn (pyLower tok) hay then some tok else searchTokenList rest hay

/-- Model of `EvaluationResponse._extract_from_json_blob`
(`src/schemas/evaluation.py`): find the first flat brace blob, parse it
leniently, lower-case the keys, then resolve `verdict` by substring search
over `['Pass', 'Fail']` and `confidence` over `['Low', 'Medium', 'High']`
against `str(value).lower()`, defaulting the missing-key lookup to `''`;
`reasoning` is taken verbatim.  Exception paths (non-dict parse result,
non-string key) and the caught parse errors all yield `none`, matching the
strategy-level outcome in the pipeline. -/
def extractFromJsonBlobCls (input : String) : Option PyVal :=
  match findBlob input.data with
  | Option.none => Option.none
  | some blob =>
    match literalEval ⟨blob⟩ with
    | Option.none => Option.none
    | some (.dict entries) =>
      match normalizeKeysAux [] entries with
      | Option.none => Option.none
      | some nd =>
        some (.dict [(.str "reasoning", (dictGet nd "reasoning").getD PyVal.none),
          (.str "verdict",
            match searchTokenList ["Pass", "Fail"]
                (pyLower (pyStr (dictGetD nd "verdict" (.str "")))) with
            | some tok => .str tok
            | Option.none => PyVal.none),
          (.str "confidence",
            match searchTokenList ["Low", "Medium", "High"]
                (pyLower (pyStr (dictGetD nd "confidence" (.str "")))) with
            | some tok => .str tok
            | Option.none => PyVal.none)])
    | some _ => Option.none

/-- Model of `extract_evaluation_from_json_blob`
(`src/utils/llm_output_parser.py`).  Differences from the classmethod twin:
no regex match and a caught parse error both return the empty dict `{}` (not
`None`); the verdict/confidence lookups have no `''` default, so a missing or
non-string value raises `AttributeError` on `.lower()` (modelled as `none`,
the exception the caller swallows); matched tokens go through
`.capitalize()`. -/
def extract_evaluation_from_json_blob (input : String) : Option PyVal :=
  match findBlob input.data with
  | Option.none => some (.dict [])
  | some blob =>
    match literalEval ⟨blob⟩ with
    | Option.none => some (.dict [])
    | some (.dict entries) =>
      match normalizeKeysAux [] entries with
      | Option.none => Option.none
      | some nd =>
        match (dictGet nd "verdict").getD PyVal.none with
        | .str vs =>
          match (dictGet nd "confidence").getD PyVal.none with
          | .str cs =>
            some (.dict [(.str "reasoning", (dictGet nd "reasoning").getD PyVal.none),
              (.str "verdict",
                match searchTokenList ["Pass", "Fail"] (pyLower vs) with
                | some tok => .str (pyCapitalize tok)
                | Option.none => PyVal.none),
              (.str "confidence",
                match searchTokenList ["Low", "Medium", "High"] (pyLower cs) with
                | some tok => .str (pyCapitalize tok)
                | Option.none => PyVal.none)])
          | _ => Option.none
        | _ => Option.none
    | some _ => Option.none

/-! ## The labeled-section (unstructured text) strategies -/

/-- Characters of the leading-marker class in `clean_text` of
`src/schemas/evaluation.py`: digits, dot, dash, the three characters of the
mojibake bullet sequence present verbatim in that file, and the asterisk. -/
def cleanClassCharS (c : Char) : Bool :=
  ('0' ≤ c ∧ c ≤ '9') ∨ c = '.' ∨ c = '-' ∨ c = 'â' ∨ c = '€' ∨ c = '¢' ∨ c = '*'

/-- Characters of the leading-marker class in `clean_text` of
`src/utils/llm_output_parser.py`: digits, dot, dash, the bullet `•`, and the
asterisk. -/
def cleanClassCharU (c : Char) : Bool :=
  ('0' ≤ c ∧ c ≤ '9') ∨ c = '.' ∨ c = '-' ∨ c = '•' ∨ c = '*'

/-- Single left-to-right pass of `re.sub(r'^[class]+\s*', '', text,
flags=re.MULTILINE)`: at each line start (string start or just after a
newline), a non-empty run of class characters and the following whitespace
run are removed; the position after a removed region is a line start exactly
when the last removed character was a newline.  Fueled by the input length
(each step consumes at least one character). -/
def cleanSubAux (cls : Char → Bool) : Nat → Bool → List Char → List Char
  | 0, _, _ => []
  | n + 1, lineStart, cs =>
    if lineStart then
      if (cs.takeWhile cls).isEmpty then
        match cs with
        | [] => []
        | c :: t => c :: cleanSubAux cls n (c = '\n') t
      else
        let rest := cs.dropWhile cls
        let ws := rest.takeWhile isPySpace
        let rest2 := rest.dropWhile isPySpace
        cleanSubAux cls n (ws.getLast? = some '\n') rest2
    else
      match cs with
      | [] => []
      | c :: t => c :: cleanSubAux cls n (c = '\n') t

/-- Model of `clean_text`: the multiline leading-marker substitution, then
`strip()`, then removal of every double-quote character. -/
def cleanText (cls : Char → Bool) (text : String) : String :=
  ⟨(pyStrip ⟨cleanSubAux cls (text.data.length + 1) true text.data⟩).data.filter
    (fun c => c ≠ '"')⟩

/-- Model of `extract_section(r'label:(.*?)next:', text)` under
`re.DOTALL | re.IGNORECASE` on the already lower-cased input: the region
between the first occurrence of `lab` and the earliest following occurrence
of `next`, stripped; `none` when the regex does not match. -/
def extract_section (lab next : String) (hayLower : String) : Option String :=
  match findSubIdx lab.data hayLower.data with
  | Option.none => Option.none
  | some i =>
    let afterLab := hayLower.data.drop (i + lab.data.length)
    match findSubIdx next.data afterLab with
    | Option.none => Option.none
    | some j => some (pyStrip ⟨afterLab.take j⟩)

/-- Model of `extract_section(r'confidence:(.*)', text)`: everything after
the first occurrence of the label, stripped. -/
def extract_section_toEnd (lab : String) (hayLower : String) : Option String :=
  match findSubIdx lab.data hayLower.data with
  | Option.none => Option.none
  | some i => some (pyStrip ⟨hayLower.data.drop (i + lab.data.length)⟩)

/-- First token of `toks` occurring as a substring of `hay`, capitalized (the
loop over the verdict/confidence token sets in the unstructured strategy).
The source iterates Python set literals whose order is implementation
defined (see spec section 9); the model fixes the written order, which every
concrete input used by the claims is insensitive to. -/
def searchSetTokens (toks : List String) (hay : String) : Option String :=
  match toks with
  | [] => Option.none
  | tok :: rest => if pyIn tok hay then some (pyCapitalize tok) else searchSetTokens rest hay

/-- Shared body of the two `extract ... from unstructured text` twins: build
the `result` dictionary from the three labeled sections of the lower-cased
input.  Empty input is `none` (the classmethod returns `None`, the utils twin
raises `ValueError`; both end the strategy).  Each section is inserted only
when its pre-clean extract is truthy and, for verdict/confidence, only when a
token matches. -/
def unstructuredResult (cls : Char → Bool) (input : String) :
    Option (List (PyVal × PyVal)) :=
  if input = "" then Option.none
  else
    let lower := pyLower input
    let r1 :=
      match extract_section "reasoning:" "verdict:" lower with
      | some g =>
        if g ≠ "" then
          let c1 := cleanText cls g
          let c2 :=
            if [':'].isPrefixOf c1.data then pyStrip ⟨c1.data.drop 1⟩ else c1
          dictInsert [] (.str "reasoning") (.str c2)
        else []
      | Option.none => []
    let r2 :=
      match extract_section "verdict:" "confidence:" lower with
      | some g =>
        if g ≠ "" then
          match searchSetTokens ["pass", "fail"] (cleanText cls g) with
          | some tok => dictInsert r1 (.str "verdict") (.str tok)
          | Option.none => r1
        else r1
      | Option.none => r1
    let r3 :=
      match extract_section_toEnd "confidence:" lower with
      | some g =>
        if g ≠ "" then
          match searchSetTokens ["low", "medium", "high"] (cleanText cls g) with
          | some tok => dictInsert r2 (.str "confidence") (.str tok)
          | Option.none => r2
        else r2
      | Option.none => r2
    some r3

/-- Model of `EvaluationResponse._extract_from_unstructured_text`: the shared
body with the schemas-file marker class, returning the dictionary only when
all three sections were found (`len(result) == 3`). -/
def extractFromUnstructuredCls (input : String) : Option PyVal :=
  match unstructuredResult cleanClassCharS input with
  | some es => if es.length = 3 then some (.dict es) else Option.none
  | Option.none => Option.none

/-- Model of `extract_evaluation_from_unstructured_text`
(`src/utils/llm_output_parser.py`): the shared body with the utils-file marker
class, returning the (possibly partial) dictionary. -/
def extract_evaluation_from_unstructured_text (input : String) : Option PyVal :=
  match unstructuredResult cleanClassCharU input with
  | some es => some (.dict es)
  | Option.none => Option.none

/-! ## The two extraction pipelines -/

/-- The default required keys of both pipelines. -/
def requiredKeys : List String := ["reasoning", "verdict", "confidence"]

/-- Boolean form of `required_keys_set.issubset(parsed_result.keys())`. -/
def hasRequiredKeys (es : List (PyVal × PyVal)) : Bool :=
  requiredKeys.all (fun k => (dictGet es k).isSome)

/-- Model of `EvaluationResponse._parse_json`: `json.loads` with decode
errors mapped to `None`. -/
def parseJsonMethod (raw : String) : Option PyVal :=
  jsonLoads raw

/-- The acceptance test the classmethod pipeline applies to one strategy
result: `if parsed_result and required_keys_set.issubset(parsed_result.keys())`.
A truthy non-dict raises `AttributeError` at `.keys()`, swallowed by the
enclosing `except Exception`, so the strategy is skipped. -/
def acceptResult (r : Option PyVal) : Option PyVal :=
  match r with
  | some v =>
    if pyTruthy v then
      match v with
      | .dict es => if hasRequiredKeys es then some (.dict es) else Option.none
      | _ => Option.none
    else Option.none
  | Option.none => Option.none

/-- The `for method in parsing_methods` loop of
`EvaluationResponse.parse_raw_evaluation`: first accepted result wins. -/
def tryMethods : List (String → Option PyVal) → String → Option PyVal
  | [], _ => Option.none
  | m :: ms, raw =>
    match acceptResult (m raw) with
    | some v => some v
    | Option.none => tryMethods ms raw

/-- The three default strategies of the classmethod pipeline, in source
order. -/
def defaultMethods : List (String → Option PyVal) :=
  [parseJsonMethod, extractFromJsonBlobCls, extractFromUnstructuredCls]

/-- Model of the classmethod `EvaluationResponse.parse_raw_evaluation` with
the default `required_keys`, parameterized by the caller-registered parsing
methods (`cls._parsing_methods`), which run after the three defaults. -/
def parse_raw_evaluation (registered : List (String → Option PyVal)) (raw : String) :
    Option PyVal :=
  tryMethods (defaultMethods ++ registered) raw

/-- Python exceptions that escape the module-level pipeline. -/
inductive PyExn where
  | attributeError
deriving DecidableEq

/-- The acceptance test of the module-level pipeline's guarded blocks:
`required_keys_set.issubset(parsed_result.keys())` inside `except Exception`
(a non-dict raises at `.keys()` and is swallowed; there is no truthiness
test here). -/
def acceptKeys (r : Option PyVal) : Option PyVal :=
  match r with
  | some (.dict es) => if hasRequiredKeys es then some (.dict es) else Option.none
  | _ => Option.none

/-- Blocks two and three of the module-level `parse_raw_evaluation`: the blob
strategy then the unstructured strategy, each wrapped in `except Exception`. -/
def utilsRest (raw : String) : Option PyVal :=
  match acceptKeys (extract_evaluation_from_json_blob raw) with
  | some v => some v
  | Option.none =>
    match acceptKeys (extract_evaluation_from_unstructured_text raw) with
    | some v => some v
    | Option.none => Option.none

/-- Model of the module-level `parse_raw_evaluation`
(`src/utils/llm_output_parser.py`) with the default `required_keys`.  Its
first block guards `json.loads` with `except (json.JSONDecodeError,
TypeError)` only, so when the parse succeeds with a non-dict value the
attribute access `parsed_result.keys()` raises an uncaught `AttributeError`,
modelled as `Except.error`. -/
def parse_raw_evaluation_utils (raw : String) : Except PyExn (Option PyVal) :=
  match jsonLoads raw with
  | some (.dict es) =>
    if hasRequiredKeys es then .ok (some (.dict es)) else .ok (utilsRest raw)
  | some _ => .error .attributeError
  | Option.none => .ok (utilsRest raw)

/-! ## Composition and spec-side definitions -/

/-- Modelled from the spec: the `extract` contract of section 4.1 composing
strategy extraction with record validation.  The repository exposes the two
halves (`EvaluationResponse.parse_raw_evaluation` and pydantic construction
of `EvaluationResponse`) without a single composing function under `src/`;
`example_code.py` feeds the parse result onward without constructing the
record, so the composition is taken from the spec's words. -/
def extractRecord (raw : String) : Except ExtractFail EvaluationResponse :=
  match parse_raw_evaluation [] raw with
  | Option.none => .error .extractionFailure
  | some (.dict es) => evalResponseFromDict es
  | some _ => .error .extractionFailure

/-- Defined from the spec's words for the refinement claim C2: a strategy
result is accepted when it is non-empty and contains all required keys; the
pipeline returns the first accepted result in the fixed order (direct parse,
embedded object, labeled sections, then registered strategies in
registration order), never merging results, and `none` when no strategy
succeeds. -/
def specAccept (r : Option PyVal) : Option PyVal :=
  match r with
  | some (.dict es) =>
    if !es.isEmpty && hasRequiredKeys es then some (.dict es) else Option.none
  | _ => Option.none

/-- Defined from the spec's words for the refinement claim C2: the ordered
strategy pipeline, first success wins (see `specAccept`). -/
def specFirstMatch (registered : List (String → Option PyVal)) (raw : String) :
    Option PyVal :=
  ((defaultMethods ++ registered).map (fun m => m raw)).findSome? specAccept

/-! ## Round-trip lemmas for the serializer and the JSON parser -/

theorem skipWs_cons_of_not_ws {c : Char} (t : List Char) (h : isJsonWs c = false) :
    skipWs (c :: t) = c :: t := by
  simp [skipWs, h]

theorem parseStringBody_roundtrip (s : List Char) (rest : List Char) :
    parseStringBody (escapeChars s ++ '"' :: rest) = some (s, rest) := by
  induction s with
  | nil =>
    simp only [escapeChars, List.nil_append]
    rw [parseStringBody.eq_def]
    simp
  | cons c t ih =>
    by_cases hq : c = '"'
    · subst hq
      simp only [escapeChars, List.cons_append, if_pos rfl]
      rw [parseStringBody.eq_def]
      simp [unescapeChar, ih]
    · by_cases hb : c = '\\'
      · subst hb
        simp only [escapeChars, List.cons_append, hq, if_false, if_pos rfl]
        rw [parseStringBody.eq_def]
        simp [unescapeChar, ih]
      · simp only [escapeChars, List.cons_append, hq, hb, if_false]
        rw [parseStringBody.eq_def]
        simp [hq, hb, ih]

theorem parseVal_string (n : Nat) (s : List Char) (rest : List Char) :
    parseVal (n + 1) ('"' :: (escapeChars s ++ '"' :: rest)) = some (.str ⟨s⟩, rest) := by
  rw [parseVal.eq_def]
  simp [skipWs, isJsonWs, parseStringBody_roundtrip]

theorem parseEntries_strEntry_comma (n : Nat) (k v : String) (rest : List Char)
    (acc : List (PyVal × PyVal)) :
    parseEntries (n + 2)
      ('"' :: (escapeChars k.data ++
        ('"' :: ':' :: '"' :: (escapeChars v.data ++ ('"' :: ',' :: rest))))) acc =
      parseEntries (n + 1) rest (dictInsert acc (.str k) (.str v)) := by
  rw [parseEntries.eq_def]
  simp [skipWs, isJsonWs, parseStringBody_roundtrip, parseVal_string]

theorem parseEntries_strEntry_close (n : Nat) (k v : String) (rest : List Char)
    (acc : List (PyVal × PyVal)) :
    parseEntries (n + 2)
      ('"' :: (escapeChars k.data ++
        ('"' :: ':' :: '"' :: (escapeChars v.data ++ ('"' :: '\x7d' :: rest))))) acc =
      some (.dict (dictInsert acc (.str k) (.str v)), rest) := by
  rw [parseEntries.eq_def]
  simp [skipWs, isJsonWs, parseStringBody_roundtrip, parseVal_string]

theorem parseVal_dump (m : Nat) (r : EvaluationResponse) :
    parseVal (m + 5) (modelDumpJsonData r) =
      some (.dict [(.str "reasoning", .str r.reasoning), (.str "verdict", .str r.verdict),
        (.str "confidence", .str r.confidence)], []) := by
  have h1 : parseVal (m + 5) (modelDumpJsonData r) =
      parseEntries (m + 4)
        ('"' :: (escapeChars "reasoning".data ++
          ('"' :: ':' :: '"' :: (escapeChars r.reasoning.data ++
            ('"' :: ',' :: ('"' :: (escapeChars "verdict".data ++
              ('"' :: ':' :: '"' :: (escapeChars r.verdict.data ++
                ('"' :: ',' :: ('"' :: (escapeChars "confidence".data ++
                  ('"' :: ':' :: '"' :: (escapeChars r.confidence.data ++
                    ('"' :: '\x7d' :: ([] : List Char)))))))))))))))) [] := by
    rw [parseVal.eq_def]
    simp [modelDumpJsonData, skipWs, isJsonWs]
  rw [h1]
  calc parseEntries (m + 4)
        ('"' :: (escapeChars "reasoning".data ++
          ('"' :: ':' :: '"' :: (escapeChars r.reasoning.data ++
            ('"' :: ',' :: ('"' :: (escapeChars "verdict".data ++
              ('"' :: ':' :: '"' :: (escapeChars r.verdict.data ++
                ('"' :: ',' :: ('"' :: (escapeChars "confidence".data ++
                  ('"' :: ':' :: '"' :: (escapeChars r.confidence.data ++
                    ('"' :: '\x7d' :: ([] : List Char)))))))))))))))) []
      = parseEntries (m + 3)
          ('"' :: (escapeChars "verdict".data ++
            ('"' :: ':' :: '"' :: (escapeChars r.verdict.data ++
              ('"' :: ',' :: ('"' :: (escapeChars "confidence".data ++
                ('"' :: ':' :: '"' :: (escapeChars r.confidence.data ++
                  ('"' :: '\x7d' :: ([] : List Char)))))))))))
          (dictInsert [] (.str "reasoning") (.str r.reasoning)) :=
        parseEntries_strEntry_comma (m + 2) "reasoning" r.reasoning _ []
    _ = parseEntries (m + 2)
          ('"' :: (escapeChars "confidence".data ++
            ('"' :: ':' :: '"' :: (escapeChars r.confidence.data ++
              ('"' :: '\x7d' :: ([] : List Char))))))
          (dictInsert (dictInsert [] (.str "reasoning") (.str r.reasoning))
            (.str "verdict") (.str r.verdict)) :=
        parseEntries_strEntry_comma (m + 1) "verdict" r.verdict _ _
    _ = some (.dict (dictInsert (dictInsert (dictInsert [] (.str "reasoning")
            (.str r.reasoning)) (.str "verdict") (.str r.verdict))
            (.str "confidence") (.str r.confidence)), []) :=
        parseEntries_strEntry_close m "confidence" r.confidence _ _
    _ = some (.dict [(.str "reasoning", .str r.reasoning), (.str "verdict", .str r.verdict),
          (.str "confidence", .str r.confidence)], []) := by
        simp [dictInsert, keyEq]

theorem jsonLoads_dump (r : EvaluationResponse) :
    jsonLoads (modelDumpJson r) =
      some (.dict [(.str "reasoning", .str r.reasoning), (.str "verdict", .str r.verdict),
        (.str "confidence", .str r.confidence)]) := by
  have hge : 4 ≤ (modelDumpJsonData r).length := by
    simp [modelDumpJsonData]
    omega
  obtain ⟨k, hk⟩ := Nat.exists_eq_add_of_le hge
  have h5 : (modelDumpJsonData r).length + 1 = k + 5 := by omega
  have hdata : (modelDumpJson r).data = modelDumpJsonData r := rfl
  unfold jsonLoads
  rw [hdata, h5, parseVal_dump]
  simp [skipWs]

/-! ## Pipeline structure lemmas -/

theorem acceptResult_eq_specAccept (r : Option PyVal) :
    acceptResult r = specAccept r := by
  match r with
  | Option.none => rfl
  | some v =>
    cases v with
    | dict es =>
      by_cases he : es.isEmpty <;> by_cases hk : hasRequiredKeys es <;>
        simp [acceptResult, specAccept, pyTruthy, he, hk]
    | str s => by_cases hs : s.isEmpty <;> simp [acceptResult, specAccept, pyTruthy, hs]
    | int n => by_cases hn : n = 0 <;> simp [acceptResult, specAccept, pyTruthy, hn]
    | bool b => cases b <;> simp [acceptResult, specAccept, pyTruthy]
    | none => simp [acceptResult, specAccept, pyTruthy]
    | list xs => by_cases hx : xs.isEmpty <;> simp [acceptResult, specAccept, pyTruthy, hx]

theorem tryMethods_eq_findSome (ms : List (String → Option PyVal)) (raw : String) :
    tryMethods ms raw = (ms.map (fun m => m raw)).findSome? specAccept := by
  induction ms with
  | nil => rfl
  | cons m ms ih =>
    rw [tryMethods, acceptResult_eq_specAccept, List.map_cons, List.findSome?_cons]
    cases hm : specAccept (m raw) with
    | none => simpa [hm] using ih
    | some v => simp [hm]

/-- Empty dictionaries never pass the required-keys test. -/
theorem hasRequiredKeys_ne_nil {es : List (PyVal × PyVal)}
    (hk : hasRequiredKeys es = true) : es.isEmpty = false := by
  cases es with
  | nil => simp [hasRequiredKeys, requiredKeys, dictGet] at hk
  | cons a t => rfl

/-! ## The claims -/

/-- Claim C2. The classmethod pipeline tries the strategies in the fixed
order (direct JSON parse, embedded blob, labeled sections, then registered
strategies in registration order) and returns the result of the first
strategy whose output is non-empty and contains all required keys — never a
merge — and the failure value `none` when no strategy succeeds; this is the
behavior `specFirstMatch` states in the spec's words. -/
theorem C2_pipeline_first_match (registered : List (String → Option PyVal))
    (raw : String) :
    parse_raw_evaluation registered raw = specFirstMatch registered raw := by
  unfold parse_raw_evaluation specFirstMatch
  exact tryMethods_eq_findSome _ raw

/-- Claim C3 (code bug).  At the JSON-valid non-object input `"5"`, the
module-level pipeline raises an uncaught `AttributeError` (its first block
catches only `JSONDecodeError`/`TypeError`, and `parsed_result.keys()` on the
parsed integer raises), contradicting its own docstring (return a dict or
`None`) and the propagation policy of the spec; the classmethod twin swallows
the error and returns the failure value. -/
theorem C3_utils_crash_on_nondict_json :
    jsonLoads "5" = some (.int 5) ∧
    parse_raw_evaluation_utils "5" = .error .attributeError ∧
    parse_raw_evaluation [] "5" = Option.none :=
  ⟨rfl, rfl, rfl⟩

/-- Claim C4.  On the direct-parse input with empty reasoning, the strategy
pipeline does produce the candidate, and record construction rejects it with
the invalid-reasoning failure, so the spec-level `extract` (strategy
extraction followed by record validation, `extractRecord`) yields
`invalidReasoning` rather than a record; in general no construction from a
dictionary whose reasoning value is empty or whitespace-only ever yields a
record. -/
theorem C4_empty_reasoning_rejected :
    parse_raw_evaluation []
        "\x7b\"reasoning\": \"\", \"verdict\": \"Pass\", \"confidence\": \"High\"\x7d" =
      some (.dict [(.str "reasoning", .str ""), (.str "verdict", .str "Pass"),
        (.str "confidence", .str "High")]) ∧
    extractRecord
        "\x7b\"reasoning\": \"\", \"verdict\": \"Pass\", \"confidence\": \"High\"\x7d" =
      .error .invalidReasoning ∧
    (∀ (es : List (PyVal × PyVal)) (s : String) (rec : EvaluationResponse),
      dictGet es "reasoning" = some (.str s) → pyStrip s = "" →
      evalResponseFromDict es ≠ .ok rec) := by
  refine ⟨rfl, rfl, ?_⟩
  intro es s rec hg hs h
  unfold evalResponseFromDict at h
  split at h
  · exact Except.noConfusion h
  · rw [hg] at h
    simp [hs] at h

/-- Claim C5.  Whenever the embedded-object strategy successfully parses and
normalizes a brace-delimited dictionary, its verdict is the first token of
`['Pass', 'Fail']` found case-insensitively inside `str(value)` (and `None`
when neither occurs), and its confidence the first token of
`['Low', 'Medium', 'High']` found the same way; in particular any confidence
value containing both `high` and `low` resolves to `Low`, and a verdict
containing neither token is unresolved. -/
theorem C5_blob_token_priority (input : String) (blob : List Char)
    (entries nd : List (PyVal × PyVal))
    (hb : findBlob input.data = some blob)
    (hl : literalEval ⟨blob⟩ = some (.dict entries))
    (hn : normalizeKeysAux [] entries = some nd) :
    extractFromJsonBlobCls input =
      some (.dict [(.str "reasoning", (dictGet nd "reasoning").getD PyVal.none),
        (.str "verdict",
          match searchTokenList ["Pass", "Fail"]
              (pyLower (pyStr (dictGetD nd "verdict" (.str "")))) with
          | some tok => .str tok
          | Option.none => PyVal.none),
        (.str "confidence",
          match searchTokenList ["Low", "Medium", "High"]
              (pyLower (pyStr (dictGetD nd "confidence" (.str "")))) with
          | some tok => .str tok
          | Option.none => PyVal.none)]) ∧
    (∀ s : String, pyIn "high" (pyLower s) = true → pyIn "low" (pyLower s) = true →
      searchTokenList ["Low", "Medium", "High"] (pyLower s) = some "Low") ∧
    (∀ s : String, pyIn "pass" (pyLower s) = false → pyIn "fail" (pyLower s) = false →
      searchTokenList ["Pass", "Fail"] (pyLower s) = Option.none) := by
  refine ⟨?_, ?_, ?_⟩
  · simp only [extractFromJsonBlobCls, hb, hl, hn]
  · intro s h1 h2
    have hlow : pyLower "Low" = "low" := rfl
    simp [searchTokenList, hlow, h2]
  · intro s h1 h2
    have hpass : pyLower "Pass" = "pass" := rfl
    have hfail : pyLower "Fail" = "fail" := rfl
    simp [searchTokenList, hpass, hfail, h1, h2]

/-- Witness for C5: a blob whose confidence value contains both `high` and
`low` resolves to `Low`, and the `pass` token in the verdict resolves to
`Pass`. -/
theorem C5_blob_token_priority_witness :
    extractFromJsonBlobCls "\x7b'verdict': 'pass', 'confidence': 'high and low'\x7d" =
      some (.dict [(.str "reasoning", PyVal.none), (.str "verdict", .str "Pass"),
        (.str "confidence", .str "Low")]) :=
  ((C5_blob_token_priority "\x7b'verdict': 'pass', 'confidence': 'high and low'\x7d"
    _ _ _ rfl rfl rfl).1).trans (by rfl)

/-- Claim C6.  Extraction of the structured object embedded in prose succeeds
and normalizes the verdict to `Fail` and the confidence to `Medium` (here via
the labeled-section strategy: the blob's bare names are not Python literals,
so the embedded-object strategy raises and is skipped). -/
theorem C6_embedded_in_prose :
    parse_raw_evaluation []
        "Here is my answer: \x7breasoning: 'good job', verdict: 'FAIL', confidence: 'medium'\x7d thanks" =
      some (.dict [(.str "reasoning", .str "'good job',"), (.str "verdict", .str "Fail"),
        (.str "confidence", .str "Medium")]) := rfl

/-- Claim C7.  Feeding the canonical serialized form of a validly constructed
record back into extraction succeeds through the direct-structured-parse path
(`json.loads` itself already yields exactly the three serialized fields), the
pipeline returns exactly those fields, and reconstructing the record from
them reproduces the identical record. -/
theorem C7_serialize_roundtrip (r : EvaluationResponse) (h : r.Valid) :
    jsonLoads (modelDumpJson r) =
      some (.dict [(.str "reasoning", .str r.reasoning), (.str "verdict", .str r.verdict),
        (.str "confidence", .str r.confidence)]) ∧
    parse_raw_evaluation [] (modelDumpJson r) =
      some (.dict [(.str "reasoning", .str r.reasoning), (.str "verdict", .str r.verdict),
        (.str "confidence", .str r.confidence)]) ∧
    evalResponseFromDict [(.str "reasoning", .str r.reasoning),
        (.str "verdict", .str r.verdict), (.str "confidence", .str r.confidence)] =
      .ok r := by
  obtain ⟨h1, h2, h3⟩ := h
  refine ⟨jsonLoads_dump r, ?_, ?_⟩
  · unfold parse_raw_evaluation defaultMethods
    rw [List.append_nil, tryMethods, parseJsonMethod, jsonLoads_dump]
    simp [acceptResult, pyTruthy, hasRequiredKeys, requiredKeys, dictGet, keyEq]
  · unfold evalResponseFromDict
    simp [dictGet, keyEq, h1, h2, h3]

/-- Witness for C7 at the record `("ok", "Pass", "High")`. -/
theorem C7_serialize_roundtrip_witness :
    jsonLoads (modelDumpJson ⟨"ok", "Pass", "High"⟩) =
      some (.dict [(.str "reasoning", .str "ok"), (.str "verdict", .str "Pass"),
        (.str "confidence", .str "High")]) ∧
    parse_raw_evaluation [] (modelDumpJson ⟨"ok", "Pass", "High"⟩) =
      some (.dict [(.str "reasoning", .str "ok"), (.str "verdict", .str "Pass"),
        (.str "confidence", .str "High")]) ∧
    evalResponseFromDict [(.str "reasoning", .str "ok"), (.str "verdict", .str "Pass"),
        (.str "confidence", .str "High")] = .ok ⟨"ok", "Pass", "High"⟩ :=
  C7_serialize_roundtrip ⟨"ok", "Pass", "High"⟩
    ⟨by decide, Or.inl rfl, Or.inl rfl⟩

/-- Counterexample to claim C8 as stated: a dictionary with the three valid
fields plus one extra key is rejected at record construction
(`Config.extra = 'forbid'`), while the same dictionary without the extra key
constructs a record — so construction is affected by extra keys rather than
ignoring them. -/
theorem C8_counterexample_extra_forbidden :
    evalResponseFromDict [(.str "reasoning", .str "ok"), (.str "verdict", .str "Pass"),
        (.str "confidence", .str "High"), (.str "extra", .int 1)] =
      .error .extraForbidden ∧
    evalResponseFromDict [(.str "reasoning", .str "ok"), (.str "verdict", .str "Pass"),
        (.str "confidence", .str "High")] = .ok ⟨"ok", "Pass", "High"⟩ ∧
    (Except.error ExtractFail.extraForbidden ≠
      (Except.ok (⟨"ok", "Pass", "High"⟩ : EvaluationResponse))) :=
  ⟨rfl, rfl, fun h => Except.noConfusion h⟩

/-- Appending extra entries to a dictionary never loses a successful
lookup. -/
theorem dictGet_isSome_append {base : List (PyVal × PyVal)}
    (extras : List (PyVal × PyVal)) (k : String)
    (h : (dictGet base k).isSome = true) :
    (dictGet (base ++ extras) k).isSome = true := by
  induction base with
  | nil => simp [dictGet] at h
  | cons a t ih =>
    cases hk : keyEq a.1 (.str k) with
    | true => simp [dictGet, List.find?_cons, hk]
    | false =>
      simp only [dictGet, List.cons_append, List.find?_cons, hk] at h ⊢
      exact ih h

/-- The required-keys test is monotone under appending extra entries. -/
theorem hasRequiredKeys_append {base : List (PyVal × PyVal)}
    (extras : List (PyVal × PyVal)) (h : hasRequiredKeys base = true) :
    hasRequiredKeys (base ++ extras) = true := by
  simp only [hasRequiredKeys, requiredKeys, List.all_cons, List.all_nil,
    Bool.and_true, Bool.and_eq_true] at h ⊢
  exact ⟨dictGet_isSome_append extras "reasoning" h.1,
    dictGet_isSome_append extras "verdict" h.2.1,
    dictGet_isSome_append extras "confidence" h.2.2⟩

/-- Claim C8 as amended: every strategy result that contains the three
required keys plus any extra entries passes the pipeline's acceptance test
unchanged (and any direct-JSON input of that shape is returned by the
pipeline with its extras intact); the scorer ignores extras (`get_score`
reads only the `verdict` and `confidence` entries); the record constructor
however rejects any dictionary containing an extra key (`extra = 'forbid'`)
instead of ignoring it, so no constructed record ever carries or depends on
extras. -/
theorem C8_amended_extras :
    (∀ base extras : List (PyVal × PyVal), hasRequiredKeys base = true →
      acceptResult (some (.dict (base ++ extras))) = some (.dict (base ++ extras))) ∧
    (∀ (raw : String) (base extras : List (PyVal × PyVal)),
      jsonLoads raw = some (.dict (base ++ extras)) → hasRequiredKeys base = true →
      parse_raw_evaluation [] raw = some (.dict (base ++ extras))) ∧
    parse_raw_evaluation []
        "\x7b\"reasoning\": \"ok\", \"verdict\": \"Pass\", \"confidence\": \"High\", \"extra\": 1\x7d" =
      some (.dict [(.str "reasoning", .str "ok"), (.str "verdict", .str "Pass"),
        (.str "confidence", .str "High"), (.str "extra", .int 1)]) ∧
    (∀ (t : ScoreSchemaRVC) (es es' : List (PyVal × PyVal)),
      dictGet es "verdict" = dictGet es' "verdict" →
      dictGet es "confidence" = dictGet es' "confidence" →
      getScore t (.dict es) = getScore t (.dict es')) ∧
    (∀ es : List (PyVal × PyVal),
      es.any (fun e => !(keyEq e.1 (.str "reasoning") || keyEq e.1 (.str "verdict") ||
        keyEq e.1 (.str "confidence"))) = true →
      ∀ rec, evalResponseFromDict es ≠ .ok rec) := by
  have haccept : ∀ base extras : List (PyVal × PyVal), hasRequiredKeys base = true →
      acceptResult (some (.dict (base ++ extras))) = some (.dict (base ++ extras)) := by
    intro base extras hk
    have hk2 := hasRequiredKeys_append extras hk
    have hne := hasRequiredKeys_ne_nil hk2
    simp [acceptResult, pyTruthy, hne, hk2]
  refine ⟨haccept, ?_, rfl, ?_, ?_⟩
  · intro raw base extras hj hk
    unfold parse_raw_evaluation defaultMethods
    rw [List.append_nil, tryMethods, parseJsonMethod, hj, haccept base extras hk]
  · intro t es es' h1 h2
    simp only [getScore, h1, h2]
  · intro es hx rec h
    unfold evalResponseFromDict at h
    repeat' split at h
    all_goals simp_all

/-- Counterexample to claim C9 as stated: at the input whose first blob is a
dictionary with none of the required fields, the classmethod pipeline
succeeds with the all-`None` candidate while the module-level pipeline
returns the failure value, so the two pipelines are not equivalent. -/
theorem C9_counterexample_pipelines_differ :
    parse_raw_evaluation_utils "\x7b'a': 1\x7d" ≠
      Except.ok (parse_raw_evaluation [] "\x7b'a': 1\x7d") := by
  intro h
  rw [show parse_raw_evaluation_utils "\x7b'a': 1\x7d" = Except.ok Option.none from rfl,
    show parse_raw_evaluation [] "\x7b'a': 1\x7d" =
      some (.dict [(.str "reasoning", PyVal.none), (.str "verdict", PyVal.none),
        (.str "confidence", PyVal.none)]) from rfl] at h
  exact Option.noConfusion (Except.ok.inj h)

/-- Claim C9 as amended: the two pipelines agree on every input whose direct
JSON parse yields a dictionary containing all required keys — both return
exactly that dictionary.  (They diverge beyond this path: on JSON-valid
non-objects the module-level pipeline raises, and on blob candidates with
missing fields only the classmethod pipeline succeeds.) -/
theorem C9_amended_agree_on_direct_json (raw : String) (es : List (PyVal × PyVal))
    (hj : jsonLoads raw = some (.dict es)) (hk : hasRequiredKeys es = true) :
    parse_raw_evaluation [] raw = some (.dict es) ∧
    parse_raw_evaluation_utils raw = .ok (some (.dict es)) := by
  have hne := hasRequiredKeys_ne_nil hk
  constructor
  · unfold parse_raw_evaluation defaultMethods
    rw [List.append_nil, tryMethods, parseJsonMethod, hj]
    simp [acceptResult, pyTruthy, hne, hk]
  · unfold parse_raw_evaluation_utils
    rw [hj]
    simp [hk]

/-- Witness for the amended C9 at a well-formed direct-JSON input. -/
theorem C9_amended_agree_on_direct_json_witness :
    parse_raw_evaluation []
        "\x7b\"reasoning\": \"ok\", \"verdict\": \"Pass\", \"confidence\": \"High\"\x7d" =
      some (.dict [(.str "reasoning", .str "ok"), (.str "verdict", .str "Pass"),
        (.str "confidence", .str "High")]) ∧
    parse_raw_evaluation_utils
        "\x7b\"reasoning\": \"ok\", \"verdict\": \"Pass\", \"confidence\": \"High\"\x7d" =
      .ok (some (.dict [(.str "reasoning", .str "ok"), (.str "verdict", .str "Pass"),
        (.str "confidence", .str "High")])) :=
  C9_amended_agree_on_direct_json
    "\x7b\"reasoning\": \"ok\", \"verdict\": \"Pass\", \"confidence\": \"High\"\x7d"
    [(.str "reasoning", .str "ok"), (.str "verdict", .str "Pass"),
      (.str "confidence", .str "High")] rfl rfl

/-- Claim C10.  On the input `{'a': 1}` — whose first brace-delimited blob
parses to a dictionary containing none of the required fields — the
classmethod pipeline returns success: a dictionary in which all three
required keys are present with value `None`, because the required-keys test
checks key presence only. -/
theorem C10_presence_only_check :
    literalEval "\x7b'a': 1\x7d" = some (.dict [(.str "a", .int 1)]) ∧
    parse_raw_evaluation [] "\x7b'a': 1\x7d" =
      some (.dict [(.str "reasoning", PyVal.none), (.str "verdict", PyVal.none),
        (.str "confidence", PyVal.none)]) :=
  ⟨rfl, rfl⟩

/-- Claim C1. For every judgment dictionary whose verdict is Pass/Fail and
whose confidence is High/Medium/Low up to letter case, `get_score` on the
default score table returns exactly the table constant for that pair, always
one of the six constants and always inside `[0, 1]`. -/
theorem C1_getScore_table (es : List (PyVal × PyVal)) (v c : String)
    (hv : dictGet es "verdict" = some (.str v))
    (hc : dictGet es "confidence" = some (.str c))
    (hvm : pyLower v = "pass" ∨ pyLower v = "fail")
    (hcm : pyLower c = "high" ∨ pyLower c = "medium" ∨ pyLower c = "low") :
    ∃ r : ℚ, getScore {} (.dict es) = some r ∧
      (pyLower v = "pass" → pyLower c = "high" → r = 1.0) ∧
      (pyLower v = "pass" → pyLower c = "medium" → r = 0.85) ∧
      (pyLower v = "pass" → pyLower c = "low" → r = 0.6) ∧
      (pyLower v = "fail" → pyLower c = "high" → r = 0.0) ∧
      (pyLower v = "fail" → pyLower c = "medium" → r = 0.15) ∧
      (pyLower v = "fail" → pyLower c = "low" → r = 0.4) ∧
      (r = 1.0 ∨ r = 0.85 ∨ r = 0.6 ∨ r = 0.0 ∨ r = 0.15 ∨ r = 0.4) ∧
      0 ≤ r ∧ r ≤ 1 := by
  rcases hvm with h1 | h1 <;> rcases hcm with h2 | h2 | h2
  · have key : getScore {} (.dict es) = some (1.0 : ℚ) := by
      simp [getScore, hv, hc, verdictFromString, confidenceFromString, h1, h2, scoreAttr]
    exact ⟨1.0, key, by simp [h1, h2], by simp [h1, h2], by simp [h1, h2], by simp [h1, h2],
      by simp [h1, h2], by simp [h1, h2], by norm_num, by norm_num, by norm_num⟩
  · have key : getScore {} (.dict es) = some (0.85 : ℚ) := by
      simp [getScore, hv, hc, verdictFromString, confidenceFromString, h1, h2, scoreAttr]
    exact ⟨0.85, key, by simp [h1, h2], by simp [h1, h2], by simp [h1, h2], by simp [h1, h2],
      by simp [h1, h2], by simp [h1, h2], by norm_num, by norm_num, by norm_num⟩
  · have key : getScore {} (.dict es) = some (0.6 : ℚ) := by
      simp [getScore, hv, hc, verdictFromString, confidenceFromString, h1, h2, scoreAttr]
    exact ⟨0.6, key, by simp [h1, h2], by simp [h1, h2], by simp [h1, h2], by simp [h1, h2],
      by simp [h1, h2], by simp [h1, h2], by norm_num, by norm_num, by norm_num⟩
  · have key : getScore {} (.dict es) = some (0.0 : ℚ) := by
      simp [getScore, hv, hc, verdictFromString, confidenceFromString, h1, h2, scoreAttr]
    exact ⟨0.0, key, by simp [h1, h2], by simp [h1, h2], by simp [h1, h2], by simp [h1, h2],
      by simp [h1, h2], by simp [h1, h2], by norm_num, by norm_num, by norm_num⟩
  · have key : getScore {} (.dict es) = some (0.15 : ℚ) := by
      simp [getScore, hv, hc, verdictFromString, confidenceFromString, h1, h2, scoreAttr]
    exact ⟨0.15, key, by simp [h1, h2], by simp [h1, h2], by simp [h1, h2], by simp [h1, h2],
      by simp [h1, h2], by simp [h1, h2], by norm_num, by norm_num, by norm_num⟩
  · have key : getScore {} (.dict es) = some (0.4 : ℚ) := by
      simp [getScore, hv, hc, verdictFromString, confidenceFromString, h1, h2, scoreAttr]
    exact ⟨0.4, key, by simp [h1, h2], by simp [h1, h2], by simp [h1, h2], by simp [h1, h2],
      by simp [h1, h2], by simp [h1, h2], by norm_num, by norm_num, by norm_num⟩

/-- Witness for C1 at the concrete record `verdict=Pass, confidence=High`. -/
theorem C1_getScore_table_witness :
    ∃ r : ℚ,
      getScore {} (.dict [(.str "verdict", .str "Pass"), (.str "confidence", .str "High")]) =
        some r ∧
      (pyLower "Pass" = "pass" → pyLower "High" = "high" → r = 1.0) ∧
      (pyLower "Pass" = "pass" → pyLower "High" = "medium" → r = 0.85) ∧
      (pyLower "Pass" = "pass" → pyLower "High" = "low" → r = 0.6) ∧
      (pyLower "Pass" = "fail" → pyLower "High" = "high" → r = 0.0) ∧
      (pyLower "Pass" = "fail" → pyLower "High" = "medium" → r = 0.15) ∧
      (pyLower "Pass" = "fail" → pyLower "High" = "low" → r = 0.4) ∧
      (r = 1.0 ∨ r = 0.85 ∨ r = 0.6 ∨ r = 0.0 ∨ r = 0.15 ∨ r = 0.4) ∧
      0 ≤ r ∧ r ≤ 1 :=
  C1_getScore_table _ "Pass" "High" rfl rfl (Or.inl (by decide)) (Or.inl (by decide))

end LLMEval
